import Mathlib

/-!
Verification of `cattern/neural_net.py` (`TwoLayerNet`): a two-layer
fully-connected classifier with ReLU hidden activation, softmax
cross-entropy loss, L2 regularization and an SGD training loop.

Shallow embedding conventions:
* numpy `float64` arrays are modelled as functions over `Fin` indices with
  entries in `ℚ`; matrix products are explicit `Finset` sums.
* `np.exp` and `np.log` are modelled by abstract parameters
  `E L : ℚ → ℚ`: every property proved here holds for an arbitrary
  exponential/logarithm, so nothing depends on their analytic behaviour.
* Python's true division `/` on numbers is `ℚ` division (total, `x/0 = 0`);
  the float modulus `x % q` (for `q > 0`) is `x - ⌊x / q⌋ * q`.
* Randomness (`np.random.choice` in `train`) is modelled as an oracle
  input stream `idx : ℕ → Fin batch_size → Fin num_train`.
-/

namespace TwoLayerNet

/-- The parameter store `self.params` of `TwoLayerNet.__init__`
(neural_net.py lines 37–41): `W1 : D×H`, `b1 : H`, `W2 : H×C`, `b2 : C`.
The same fixed-shape record also serves as the gradient store `grads`
built at line 158, whose entries are shaped identically. -/
structure Params (D H C : ℕ) where
  W1 : Fin D → Fin H → ℚ
  b1 : Fin H → ℚ
  W2 : Fin H → Fin C → ℚ
  b2 : Fin C → ℚ

/-- `np.matmul` on dense 2-d arrays. -/
def matmul {m n k : ℕ} (A : Fin m → Fin n → ℚ) (B : Fin n → Fin k → ℚ) :
    Fin m → Fin k → ℚ :=
  fun i j => ∑ l : Fin n, A i l * B l j

/-- numpy `.T` transpose. -/
def transpose {m n : ℕ} (A : Fin m → Fin n → ℚ) : Fin n → Fin m → ℚ :=
  fun i j => A j i

/-- Line 80: `a1 = np.maximum(0, np.matmul(X, W1) + b1)` — hidden-layer
ReLU output, shape N×H (the bias `b1` is broadcast across rows). -/
def a1 {D H C N : ℕ} (p : Params D H C) (X : Fin N → Fin D → ℚ) :
    Fin N → Fin H → ℚ :=
  fun i h => max 0 (matmul X p.W1 i h + p.b1 h)

/-- Line 81: `scores = np.matmul(a1, W2) + b2` — raw class scores, N×C. -/
def scores {D H C N : ℕ} (p : Params D H C) (X : Fin N → Fin D → ℚ) :
    Fin N → Fin C → ℚ :=
  fun i c => matmul (a1 p X) p.W2 i c + p.b2 c

/-- Lines 98–99:
`softmax = np.exp(scores); softmax = np.array([row/row.sum() for row in softmax])`.
Row-wise normalized exponentials of the raw scores; no row-max is
subtracted before exponentiating. `E` stands for `np.exp`. -/
def softmax {D H C N : ℕ} (E : ℚ → ℚ) (p : Params D H C)
    (X : Fin N → Fin D → ℚ) : Fin N → Fin C → ℚ :=
  fun i c => E (scores p X i c) / ∑ c' : Fin C, E (scores p X i c')

/-- `np.sum(W**2)` — sum of squared entries of a weight matrix. -/
def sqSum {m n : ℕ} (W : Fin m → Fin n → ℚ) : ℚ :=
  ∑ i : Fin m, ∑ j : Fin n, (W i j) ^ 2

/-- Lines 100–101:
`losses = -np.log(softmax[np.arange(N), y])` and
`loss = np.sum(losses)/N + reg * (np.sum(W1**2) + np.sum(W2**2))/2`.
`L` stands for `np.log`. -/
def loss {D H C N : ℕ} (E L : ℚ → ℚ) (p : Params D H C)
    (X : Fin N → Fin D → ℚ) (y : Fin N → Fin C) (reg : ℚ) : ℚ :=
  (∑ i : Fin N, -(L (softmax E p X i (y i)))) / N
    + reg * (sqSum p.W1 + sqSum p.W2) / 2

/-- Lines 140–141: `dscores = softmax[:,:]` followed by the in-place
`dscores[np.arange(N), y] -= 1`. The value of `dscores` after the
subtraction: the softmax probabilities with 1 subtracted at each row's
true-class column. -/
def dscores {D H C N : ℕ} (E : ℚ → ℚ) (p : Params D H C)
    (X : Fin N → Fin D → ℚ) (y : Fin N → Fin C) : Fin N → Fin C → ℚ :=
  fun i c => softmax E p X i c - (if c = y i then 1 else 0)

/-- Line 147–148: `da1 = np.matmul(dscores, W2.T)` then `da1[a1 <= 0] = 0`.
The value of `da1` after the in-place zeroing at positions where
`a1 ≤ 0`. -/
def da1 {D H C N : ℕ} (E : ℚ → ℚ) (p : Params D H C)
    (X : Fin N → Fin D → ℚ) (y : Fin N → Fin C) : Fin N → Fin H → ℚ :=
  fun i h =>
    if a1 p X i h ≤ 0 then 0
    else matmul (dscores E p X y) (transpose p.W2) i h

/-- Lines 143–158, the backward pass producing the `grads` dictionary:
`dW2 = np.matmul(a1.T, dscores)/N`,
`db2 = (np.matmul(np.ones((1,N)), dscores)/N).reshape(-1)`,
`dW1 = np.matmul(X.T, da1)/N`,
`db1 = (np.matmul(np.ones((1,N)), da1)/N).reshape(-1)`,
then `dW1 += reg * W1` and `dW2 += reg * W2`, and
`grads = {'W1': dW1, 'b1': db1, 'W2': dW2, 'b2': db2}`. -/
def grads {D H C N : ℕ} (E : ℚ → ℚ) (p : Params D H C)
    (X : Fin N → Fin D → ℚ) (y : Fin N → Fin C) (reg : ℚ) : Params D H C where
  W1 := fun d h => matmul (transpose X) (da1 E p X y) d h / N + reg * p.W1 d h
  b1 := fun h => (∑ i : Fin N, (1 : ℚ) * da1 E p X y i h) / N
  W2 := fun h c =>
    matmul (transpose (a1 p X)) (dscores E p X y) h c / N + reg * p.W2 h c
  b2 := fun c => (∑ i : Fin N, (1 : ℚ) * dscores E p X y i c) / N

/-- The total loss exactly as section 4.3 of the specification words it:
mean over the batch of −log of the softmax probability of the true class
(softmax = exponentiate the raw scores and normalize each row, with no
max-subtraction), plus (λ/2) times the sum of squares of all entries of
W1 and W2. Stated for refinement against `loss`. -/
def lossSpec {D H C N : ℕ} (E L : ℚ → ℚ) (p : Params D H C)
    (X : Fin N → Fin D → ℚ) (y : Fin N → Fin C) (reg : ℚ) : ℚ :=
  (∑ i : Fin N,
      -(L (E (scores p X i (y i)) / ∑ c : Fin C, E (scores p X i c)))) / N
    + reg / 2 * (sqSum p.W1 + sqSum p.W2)

/-- Python's float modulus `x % q` for a positive modulus `q`:
`x - ⌊x / q⌋ * q` (the result takes the sign of the divisor). -/
def pyMod (x q : ℚ) : ℚ := x - ⌊x / q⌋ * q

/-- Line 188: `iterations_per_epoch = max(num_train / batch_size, 1)`.
`/` is Python 3 true division, so this is the exact rational quotient
(not its floor), clamped below by 1. -/
def iterationsPerEpoch (num_train batch_size : ℕ) : ℚ :=
  max ((num_train : ℚ) / (batch_size : ℚ)) 1

/-- Line 232: the epoch-boundary test `it % iterations_per_epoch == 0`.
Since `iterations_per_epoch` is a (true-division) quotient, the test asks
whether the integer counter `it` is an exact multiple of the rational
`max(num_train/batch_size, 1)`. -/
def epochFires (num_train batch_size it : ℕ) : Bool :=
  pyMod (it : ℚ) (iterationsPerEpoch num_train batch_size) == 0

/-- The epoch-boundary test as spec §4.6 words it: epoch length
`max(1, floor(num_train / batch_size))` (an integer, `ℕ` division), fire
when the counter is an exact multiple of it. Stated for comparison with
`epochFires`, which embeds the code. -/
def epochFiresSpec (num_train batch_size it : ℕ) : Bool :=
  it % max (num_train / batch_size) 1 == 0

/-- The learning rate in force at the start of iteration `n` of `train`
(so `lrAt … n` is the rate used by iteration `n`'s parameter update).
Per lines 232–243, after the update of any iteration `it` passing the
epoch-boundary test the rate is multiplied by `learning_rate_decay`. -/
def lrAt (lr0 decay : ℚ) (num_train batch_size : ℕ) : ℕ → ℚ
  | 0 => lr0
  | n + 1 =>
    if epochFires num_train batch_size n
    then lrAt lr0 decay num_train batch_size n * decay
    else lrAt lr0 decay num_train batch_size n

/-- Lines 220–223: the plain SGD update
`self.params[k] -= learning_rate * grads[k]` for each of the four
parameter arrays. -/
def sgdStep {D H C : ℕ} (p : Params D H C) (lr : ℚ) (g : Params D H C) :
    Params D H C where
  W1 := fun d h => p.W1 d h - lr * g.W1 d h
  b1 := fun h => p.b1 h - lr * g.b1 h
  W2 := fun h c => p.W2 h c - lr * g.W2 h c
  b2 := fun c => p.b2 c - lr * g.b2 c

/-- The mutable state of `train`'s loop (lines 195–246): the parameter
store and the current learning rate, after `n` completed iterations.
Iteration `n` samples the batch rows `idx n` (the oracle stream standing
for `np.random.choice(num_train, batch_size)`, line 204), updates every
parameter with `sgdStep` at the current rate, and then decays the rate
when the epoch-boundary test passes at counter `n`. The history lists
(recorded losses and accuracies) do not feed back into this state. -/
def trainState {D H C : ℕ} (E : ℚ → ℚ) (num_train batch_size : ℕ)
    (X : Fin num_train → Fin D → ℚ) (y : Fin num_train → Fin C)
    (idx : ℕ → Fin batch_size → Fin num_train)
    (lr0 decay reg : ℚ) (p0 : Params D H C) : ℕ → Params D H C × ℚ
  | 0 => (p0, lr0)
  | n + 1 =>
    let s := trainState E num_train batch_size X y idx lr0 decay reg p0 n
    let Xb : Fin batch_size → Fin D → ℚ := fun b => X (idx n b)
    let yb : Fin batch_size → Fin C := fun b => y (idx n b)
    (sgdStep s.1 s.2 (grads E s.1 Xb yb reg),
      if epochFires num_train batch_size n then s.2 * decay else s.2)

/-- `np.argmax` over one row of scores (first index attaining the
maximum), as used at line 277; requires a nonempty axis like numpy. -/
def npArgmax {C : ℕ} (hC : 0 < C) (v : Fin C → ℚ) : Fin C :=
  (List.finRange C).foldl (fun best j => if v best < v j then j else best)
    ⟨0, hC⟩

/-- Lines 275–277: `predict` recomputes the forward pass and returns, per
row, `np.argmax(scores, axis=1)` as an integer label. A pure function of
`X` and the current parameters. -/
def predict {D H C N : ℕ} (hC : 0 < C) (p : Params D H C)
    (X : Fin N → Fin D → ℚ) : Fin N → ℕ :=
  fun i => (npArgmax hC (fun c => scores p X i c)).val

/-- numpy integer fancy-indexing along an axis of length `C` (line 100,
`softmax[np.arange(N), y]`): an index `z` with `0 ≤ z < C` selects
position `z`; a negative `z` with `-C ≤ z` wraps to `C + z`; anything
else raises `IndexError`. -/
def npIndex (C : ℕ) (z : ℤ) : Option (Fin C) :=
  if h : 0 ≤ z ∧ z < (C : ℤ) then some ⟨z.toNat, by omega⟩
  else if h2 : -(C : ℤ) ≤ z ∧ z < 0 then some ⟨(z + C).toNat, by omega⟩
  else none

/-- The `y`-given path of `loss` run on a raw integer label vector, as the
code receives it: no validation is performed anywhere; the forward-pass
matrix products (lines 80–81) are total, and the only failure point is
the fancy-indexing `softmax[np.arange(N), y]` / `dscores[np.arange(N), y]`
(lines 100 and 141), which raises only when some label falls outside
`[-C, C)`; labels in `[-C, 0)` silently wrap to `C + y[i]` and the call
completes. -/
def lossZ {D H C N : ℕ} (E L : ℚ → ℚ) (p : Params D H C)
    (X : Fin N → Fin D → ℚ) (y : Fin N → ℤ) (reg : ℚ) : Option ℚ :=
  if h : ∀ i, (npIndex C (y i)).isSome
  then some (loss E L p X (fun i => (npIndex C (y i)).get (h i)) reg)
  else none

/-- The two possible returns of `loss` (lines 87–88 and 164): the raw
score matrix when `y` is omitted, or the pair of the scalar loss and the
gradient dictionary when `y` is given. -/
inductive LossReturn (D H C N : ℕ) where
  | scoresOnly : (Fin N → Fin C → ℚ) → LossReturn D H C N
  | lossAndGrads : ℚ → Params D H C → LossReturn D H C N

/-- The full dispatch of `loss(X, y=None, reg=0.0)`: compute the forward
pass; if `y is None` return `scores` (line 88), otherwise return the
`(loss, grads)` pair (line 164). `reg` is accepted in both cases. -/
def lossDispatch {D H C N : ℕ} (E L : ℚ → ℚ) (p : Params D H C)
    (X : Fin N → Fin D → ℚ) (y? : Option (Fin N → Fin C)) (reg : ℚ) :
    LossReturn D H C N :=
  match y? with
  | none => .scoresOnly (scores p X)
  | some y => .lossAndGrads (loss E L p X y reg) (grads E p X y reg)

/-- The local variables `softmax` and `dscores` of the `loss` body as they
stand right after line 141. Line 140, `dscores = softmax[:,:]`, is a
basic slice: it yields a view sharing `softmax`'s buffer, not a fresh
copy; the in-place `dscores[np.arange(N), y] -= 1` of line 141 therefore
writes through to the array both names refer to, so from line 141 on both
variables observe the subtracted matrix. -/
structure BackwardLocals (N C : ℕ) where
  softmax : Fin N → Fin C → ℚ
  dscores : Fin N → Fin C → ℚ

/-- The values of the two local variables after line 141 (see
`BackwardLocals`): one shared array, equal to the forward softmax with 1
subtracted at each row's true-class column. -/
def backwardLocals {D H C N : ℕ} (E : ℚ → ℚ) (p : Params D H C)
    (X : Fin N → Fin D → ℚ) (y : Fin N → Fin C) : BackwardLocals N C :=
  let mutated : Fin N → Fin C → ℚ :=
    fun i c => softmax E p X i c - (if c = y i then 1 else 0)
  ⟨mutated, mutated⟩

/-- Row-list representation of a matrix (for stating shape facts about
the function-typed arrays). -/
def matRows {m n : ℕ} (A : Fin m → Fin n → ℚ) : List (List ℚ) :=
  List.ofFn (fun i => List.ofFn (A i))

/-- List representation of a vector. -/
def vecList {n : ℕ} (v : Fin n → ℚ) : List ℚ :=
  List.ofFn v

/-- C1: the gradients returned by `loss(X, y, reg)` satisfy the
backpropagation equations of spec §4.4: dScores is the softmax output
minus the true-class indicator; dW2 = (a1ᵗ·dScores)/N + λ·W2;
db2 = column-sum of dScores over N; dA1 = dScores·W2ᵗ zeroed wherever
a1 ≤ 0; dW1 = (Xᵗ·dA1)/N + λ·W1; db1 = column-sum of dA1 over N; and
the bias gradients b1, b2 carry no regularization term (they are
independent of λ). -/
theorem grads_backprop_equations {D H C N : ℕ} (E : ℚ → ℚ) (p : Params D H C)
    (X : Fin N → Fin D → ℚ) (y : Fin N → Fin C) (reg : ℚ) :
    (∀ i c, dscores E p X y i c
        = softmax E p X i c - (if c = y i then 1 else 0))
    ∧ (∀ h c, (grads E p X y reg).W2 h c
        = (∑ i : Fin N, a1 p X i h * dscores E p X y i c) / N
          + reg * p.W2 h c)
    ∧ (∀ c, (grads E p X y reg).b2 c
        = (∑ i : Fin N, dscores E p X y i c) / N)
    ∧ (∀ i h, da1 E p X y i h
        = if a1 p X i h ≤ 0 then 0
          else ∑ c : Fin C, dscores E p X y i c * p.W2 h c)
    ∧ (∀ d h, (grads E p X y reg).W1 d h
        = (∑ i : Fin N, X i d * da1 E p X y i h) / N + reg * p.W1 d h)
    ∧ (∀ h, (grads E p X y reg).b1 h
        = (∑ i : Fin N, da1 E p X y i h) / N)
    ∧ (∀ reg', (grads E p X y reg).b1 = (grads E p X y reg').b1
        ∧ (grads E p X y reg).b2 = (grads E p X y reg').b2) := by
  refine ⟨fun i c => rfl, fun h c => ?_, fun c => ?_, fun i h => rfl,
    fun d h => ?_, fun h => ?_, fun reg' => ⟨rfl, rfl⟩⟩
  · simp [grads, matmul, transpose]
  · simp [grads, one_mul]
  · simp [grads, matmul, transpose]
  · simp [grads, one_mul]

/-- A concrete 1×1×1 parameter set (weights 1, biases 0) for concrete
evaluations. -/
def pOne : Params 1 1 1 where
  W1 := fun _ _ => 1
  b1 := fun _ => 0
  W2 := fun _ _ => 1
  b2 := fun _ => 0

/-- A concrete 1×1 input batch. -/
def xOne : Fin 1 → Fin 1 → ℚ := fun _ _ => 1

/-- C3 (evidence of the division slip): with `num_train = 5`,
`batch_size = 2`, the spec's integer epoch length is
`max(1, floor(5/2)) = 2`, so the spec-side check fires at iteration 2;
but the code computes `iterations_per_epoch = 5/2 = 2.5` by true
division, so its check `it % 2.5 == 0` does not fire at iteration 2, and
fires next only at iteration 5. (Both fire at iteration 0.) The `5/2`
case is exactly representable in binary floating point, so the exact
rational model agrees with the Python float computation here. -/
theorem epochCheck_division_mismatch :
    epochFiresSpec 5 2 2 = true ∧ epochFires 5 2 2 = false
    ∧ epochFiresSpec 5 2 0 = true ∧ epochFires 5 2 0 = true
    ∧ epochFires 5 2 5 = true ∧ epochFires 5 2 4 = false := by
  refine ⟨?_, ?_, ?_, ?_, ?_, ?_⟩ <;>
    first
      | (simp only [epochFiresSpec]; norm_num)
      | (simp only [epochFires, pyMod, iterationsPerEpoch]; norm_num)

/-- C4 (evidence of the division slip): take `num_train = 10`,
`batch_size = 3`, `learning_rate = 1`, `learning_rate_decay = 1/2`, and
run 7 iterations (more than 2 completed epochs, an epoch being
10/3 ≈ 3.33 iterations). The code's epoch test `it % (10/3) == 0` passes
only at iteration 0 among iterations 0–6, so the learning rate in force
after 7 iterations is 1/2 — not the claimed `initial · decay² = 1/4`.
(The float computation agrees: `it % float(10/3)` is nonzero for
`it = 1,…,6`.) -/
theorem lrAt_no_decay_after_inexact_epochs :
    lrAt 1 (1/2) 10 3 7 = 1/2 ∧ ((1 : ℚ)/2 ≠ 1 * (1/2) ^ 2) := by
  constructor
  · norm_num [lrAt, epochFires, pyMod, iterationsPerEpoch]
  · norm_num

/-- C2: the scalar returned by `loss(X, y, reg)` equals the mean over the
N rows of −log of the softmax probability of the true class (softmax
computed by exponentiating the raw scores and normalizing each row, with
no max-subtraction) plus (λ/2)·(sum of squares of all entries of W1 and
W2): the code's loss coincides with the specification's formula. -/
theorem loss_eq_crossEntropy_plus_reg {D H C N : ℕ} (E L : ℚ → ℚ)
    (p : Params D H C) (X : Fin N → Fin D → ℚ) (y : Fin N → Fin C)
    (reg : ℚ) :
    loss E L p X y reg = lossSpec E L p X y reg := by
  unfold loss lossSpec softmax
  ring

/-- The range of labels accepted by the fancy-indexing of line 100. -/
theorem npIndex_isSome_iff (C : ℕ) (z : ℤ) :
    (npIndex C z).isSome = true ↔ (-(C : ℤ) ≤ z ∧ z < C) := by
  unfold npIndex
  split
  · next h => simp only [Option.isSome_some, true_iff]; omega
  · next h =>
    split
    · next h2 => simp only [Option.isSome_some, true_iff]; omega
    · next h2 =>
      simp only [Option.isSome_none, Bool.false_eq_true, false_iff,
        not_and, not_lt, not_forall]
      omega

/-- C5 (counterexample): a malformed batch on which `loss` completes and
returns a result instead of failing. With `C = 1` the only valid label
is 0, so the label vector `[-1]` is outside `[0, C)`; yet the call runs
the forward matrix products and then completes — numpy's negative
indexing silently wraps `-1` to class 0 — contradicting the claim that
every malformed input is detected and fails before the matrix
operations. -/
theorem loss_negative_label_completes :
    (lossZ (fun _ => 1) (fun _ => 0) pOne xOne (fun _ => (-1 : ℤ))
      0).isSome = true := by
  have h : ∀ i : Fin 1,
      (npIndex 1 ((fun _ => (-1 : ℤ)) i)).isSome = true := by
    intro i
    exact (npIndex_isSome_iff 1 (-1)).2 (by norm_num)
  rw [lossZ, dif_pos h]
  rfl

/-- C5 (amended): `loss` performs no shape or label validation. The
forward-pass matrix products are always executed; the call completes and
returns a value exactly when every label lies in `[-C, C)` — labels in
`[-C, 0)` being silently wrapped by numpy's negative indexing — and it
fails only when some label falls outside `[-C, C)`, the failure arising
at the label-indexing step after the matrix products, not before them. -/
theorem lossZ_isSome_iff {D H C N : ℕ} (E L : ℚ → ℚ) (p : Params D H C)
    (X : Fin N → Fin D → ℚ) (y : Fin N → ℤ) (reg : ℚ) :
    (lossZ E L p X y reg).isSome = true
      ↔ ∀ i, -(C : ℤ) ≤ y i ∧ y i < C := by
  unfold lossZ
  split
  · next h =>
    simp only [Option.isSome_some, true_iff]
    intro i
    exact (npIndex_isSome_iff C (y i)).1 (h i)
  · next h =>
    simp only [Option.isSome_none, Bool.false_eq_true, false_iff]
    intro hall
    exact h fun i => (npIndex_isSome_iff C (y i)).2 (hall i)

/-- C6: calling `loss` with `y` omitted returns only the N×C score
matrix — never a loss/gradient pair — whatever the value of `reg`; and
calling it with `y` supplied returns the pair of the scalar loss and the
gradient set. -/
theorem loss_dispatch_shape {D H C N : ℕ} (E L : ℚ → ℚ) (p : Params D H C)
    (X : Fin N → Fin D → ℚ) :
    (∀ reg, lossDispatch E L p X none reg
        = LossReturn.scoresOnly (scores p X))
    ∧ (∀ y reg, lossDispatch E L p X (some y) reg
        = LossReturn.lossAndGrads (loss E L p X y reg)
            (grads E p X y reg)) :=
  ⟨fun _ => rfl, fun _ _ => rfl⟩

/-- Sum of squared entries is positive once some entry is nonzero. -/
theorem sqSum_pos_of_ne_zero {m n : ℕ} (W : Fin m → Fin n → ℚ)
    (h : ∃ i j, W i j ≠ 0) : 0 < sqSum W := by
  obtain ⟨i, j, hij⟩ := h
  refine Finset.sum_pos'
    (fun a _ => Finset.sum_nonneg fun b _ => sq_nonneg _)
    ⟨i, Finset.mem_univ i, ?_⟩
  exact Finset.sum_pos' (fun b _ => sq_nonneg _)
    ⟨j, Finset.mem_univ j, pow_two_pos_of_ne_zero hij⟩

/-- Sum of squared entries is nonnegative. -/
theorem sqSum_nonneg {m n : ℕ} (W : Fin m → Fin n → ℚ) : 0 ≤ sqSum W :=
  Finset.sum_nonneg fun _ _ => Finset.sum_nonneg fun _ _ => sq_nonneg _

/-- C7: with the weight matrices not both all-zero, the scalar returned
by `loss(X, y, reg)` is strictly increasing in the regularization
strength, everything else held fixed. -/
theorem loss_strictMono_in_reg {D H C N : ℕ} (E L : ℚ → ℚ)
    (p : Params D H C) (X : Fin N → Fin D → ℚ) (y : Fin N → Fin C)
    (hW : (∃ d h, p.W1 d h ≠ 0) ∨ (∃ h c, p.W2 h c ≠ 0))
    {r1 r2 : ℚ} (hr : r1 < r2) :
    loss E L p X y r1 < loss E L p X y r2 := by
  have hpos : 0 < sqSum p.W1 + sqSum p.W2 := by
    rcases hW with h | h
    · have h1 := sqSum_pos_of_ne_zero p.W1 h
      have h2 := sqSum_nonneg p.W2
      linarith
    · have h1 := sqSum_pos_of_ne_zero p.W2 h
      have h2 := sqSum_nonneg p.W1
      linarith
  have hmul : r1 * (sqSum p.W1 + sqSum p.W2)
      < r2 * (sqSum p.W1 + sqSum p.W2) :=
    mul_lt_mul_of_pos_right hr hpos
  unfold loss
  linarith

/-- Witness for C7 at a concrete input: the 1×1×1 network with weight 1,
regularization strengths 0 < 1. -/
theorem loss_strictMono_in_reg_witness :
    ((∃ d h, pOne.W1 d h ≠ 0) ∨ (∃ h c, pOne.W2 h c ≠ 0))
    ∧ loss (fun _ => 1) (fun _ => 0) pOne xOne (fun _ => 0) 0
        < loss (fun _ => 1) (fun _ => 0) pOne xOne (fun _ => 0) 1 :=
  ⟨Or.inl ⟨0, 0, by norm_num [pOne]⟩,
    loss_strictMono_in_reg (fun _ => 1) (fun _ => 0) pOne xOne (fun _ => 0)
      (Or.inl ⟨0, 0, by norm_num [pOne]⟩) (by norm_num)⟩

/-- C8: for a nonempty class axis, `predict(X)` assigns to each of the N
rows an integer label strictly below C, the number of columns of W2; the
output is one label per row of X, and `predict` is a pure function of X
and the current parameters. -/
theorem predict_range {D H C N : ℕ} (hC : 0 < C) (p : Params D H C)
    (X : Fin N → Fin D → ℚ) : ∀ i, predict hC p X i < C :=
  fun i => (npArgmax hC fun c => scores p X i c).isLt

/-- Witness for C8 at a concrete input: the 1×1×1 network on a single
row. -/
theorem predict_range_witness :
    0 < 1 ∧ predict Nat.one_pos pOne xOne 0 < 1 :=
  ⟨Nat.one_pos, predict_range Nat.one_pos pOne xOne 0⟩

/-- C9: after every one of the iterations of `train` — each consisting of
a gradient-update step (and possibly a learning-rate decay) — the four
parameter arrays keep exactly the construction shapes D×H, H, H×C, C:
the row-list representation of each array has the same dimensions at
step n as at step 0, for every n. -/
theorem train_param_shapes_invariant {D H C : ℕ} (E : ℚ → ℚ)
    (num_train batch_size : ℕ) (X : Fin num_train → Fin D → ℚ)
    (y : Fin num_train → Fin C) (idx : ℕ → Fin batch_size → Fin num_train)
    (lr0 decay reg : ℚ) (p0 : Params D H C) (n : ℕ) :
    (matRows
        (trainState E num_train batch_size X y idx lr0 decay reg p0 n).1.W1
      ).length = D
    ∧ (∀ r ∈ matRows
          (trainState E num_train batch_size X y idx lr0 decay reg p0
            n).1.W1, r.length = H)
    ∧ (vecList
        (trainState E num_train batch_size X y idx lr0 decay reg p0 n).1.b1
      ).length = H
    ∧ (matRows
        (trainState E num_train batch_size X y idx lr0 decay reg p0 n).1.W2
      ).length = H
    ∧ (∀ r ∈ matRows
          (trainState E num_train batch_size X y idx lr0 decay reg p0
            n).1.W2, r.length = C)
    ∧ (vecList
        (trainState E num_train batch_size X y idx lr0 decay reg p0 n).1.b2
      ).length = C := by
  refine ⟨?_, ?_, ?_, ?_, ?_, ?_⟩ <;>
    simp [matRows, vecList, List.mem_ofFn]

/-- C10: inside one `loss` call, `dscores = softmax[:,:]` (line 140) is a
view of the softmax array, so the in-place subtraction of line 141
mutates the array both variables name: afterwards `dscores` and the
`softmax` variable hold the same array, whose entries at each row's
true-class column equal the forward-pass probability minus 1 and hence
no longer equal the forward-pass probability. -/
theorem dscores_aliases_softmax {D H C N : ℕ} (E : ℚ → ℚ)
    (p : Params D H C) (X : Fin N → Fin D → ℚ) (y : Fin N → Fin C) :
    (backwardLocals E p X y).dscores = (backwardLocals E p X y).softmax
    ∧ (∀ i, (backwardLocals E p X y).softmax i (y i)
        = softmax E p X i (y i) - 1)
    ∧ (∀ i, (backwardLocals E p X y).softmax i (y i)
        ≠ softmax E p X i (y i)) := by
  refine ⟨rfl, fun i => by simp [backwardLocals], fun i => ?_⟩
  simp [backwardLocals, sub_eq_self]

end TwoLayerNet
